import Mathlib

/-!
# Racing Line Mapper — shallow embedding and verification

This file embeds, in Lean 4, the parts of the `racing-line-mapper` Go
repository that the verified claims are about:

* `internal/common/vector.go` — `Vec2`
* `internal/track/track.go`   — `CellType`, `Cell`, `Grid`, `Grid.Get`
* `internal/track/mesh.go`    — `Waypoint`, `TrackMesh`, `GetClosestWaypoint`
* `internal/agent/qlearning.go` — hyperparameters, reward constants, `State`,
  `QTable`, `Learn`, the epsilon update of `SelectAction`,
  `DiscretizeState`, and `CalculateReward`.

Go `float64` values are modelled as `ℚ` (every concrete float is a rational;
the algebraic structure of the code is preserved), except for the
trigonometric heading computation inside `DiscretizeState`, which is modelled
over `ℝ` (`math.Atan2` is transcendental).  Go `int` values are modelled as
`ℤ`.  The constant `math.MaxFloat64` is modelled by its exact rational value
`2^1024 - 2^971`.  `CalculateReward` mutates the car's `Checkpoint` and
`Laps` fields in Go; here it returns them explicitly in a `RewardResult`.
-/

/-- 2D vector with `float64` components (internal/common/vector.go). -/
structure Vec2 where
  x : ℚ
  y : ℚ
deriving DecidableEq, Repr

/-- Surface classification of a grid cell (internal/track/track.go). -/
inductive CellType where
  | wall
  | tarmac
  | gravel
  | start
  | finish
  | direction
deriving DecidableEq, Repr

/-- A single unit of the track (internal/track/track.go). -/
structure Cell where
  type : CellType
  friction : ℚ
deriving DecidableEq, Repr

/-- The synthetic cell returned for out-of-range lookups: a Wall with friction 0. -/
def wallCell : Cell := ⟨CellType.wall, 0⟩

/-- The discretized track (internal/track/track.go).  `Cells` is a
column-major `Width × Height` array, modelled as a list of columns. -/
structure Grid where
  width : ℤ
  height : ℤ
  cells : List (List Cell)
  scale : ℚ
deriving Repr

/-- `Grid.Get` (internal/track/track.go, lines 44-50): returns the cell at
`(x, y)`, or a synthetic Wall cell if `(x, y)` is out of bounds. -/
def Grid.Get (g : Grid) (x y : ℤ) : Cell :=
  if x < 0 ∨ x ≥ g.width ∨ y < 0 ∨ y ≥ g.height then
    { type := CellType.wall, friction := 0.0 }
  else
    (g.cells.getD x.toNat []).getD y.toNat wallCell

/-- A grid as built by `NewGrid` / the loader: `cells` really is a
`width × height` array. -/
def Grid.WellFormed (g : Grid) : Prop :=
  g.cells.length = g.width.toNat ∧ ∀ col ∈ g.cells, col.length = g.height.toNat

/-- A point on the track centerline (internal/track/mesh.go). -/
structure Waypoint where
  id : ℤ
  Position : Vec2
  Normal : Vec2
  Width : ℚ
  Distance : ℚ
deriving DecidableEq, Repr

/-- The zero-value `Waypoint{}` that Go returns when the mesh is empty. -/
def zeroWaypoint : Waypoint := ⟨0, ⟨0, 0⟩, ⟨0, 0⟩, 0, 0⟩

/-- The curvilinear coordinate system of the track (internal/track/mesh.go). -/
structure TrackMesh where
  Waypoints : List Waypoint
  TotalLen : ℚ
deriving Repr

/-- Exact rational value of `math.MaxFloat64` (= `(2 - 2⁻⁵²) · 2¹⁰²³`
= `2¹⁰²⁴ - 2⁹⁷¹`), written as a decimal literal so that the kernel can
evaluate comparisons against it. -/
def maxFloat64 : ℚ :=
  179769313486231570814527423731704356798070567525844996598917476803157260780028538760589558632766878171540458953514382464234321326889464182768467546703537516986049910576551282076245490090389328944075868508455133942304583236903222948165808559332123348274797826204144723168738177180919299881250404026184124858368

/-- Squared Euclidean distance, as computed inside the waypoint scan
(`dx*dx + dy*dy`). -/
def distSq (p q : Vec2) : ℚ :=
  (p.x - q.x) * (p.x - q.x) + (p.y - q.y) * (p.y - q.y)

/-- The linear scan inside `GetClosestWaypoint`: walk the waypoint list
carrying the running index `i`, the best squared distance `minD`
(initially `math.MaxFloat64`) and the best index `idx` (initially `-1`);
a waypoint replaces the running best only when strictly closer. -/
def closestAux (pos : Vec2) : List Waypoint → ℕ → ℚ → ℤ → ℚ × ℤ
  | [], _, minD, idx => (minD, idx)
  | wp :: rest, i, minD, idx =>
    let dSq := distSq pos wp.Position
    if dSq < minD then closestAux pos rest (i + 1) dSq (i : ℤ)
    else closestAux pos rest (i + 1) minD idx

/-- `GetClosestWaypoint` (internal/track/mesh.go, lines 26-44): linear scan
for the waypoint closest to `pos`; returns the zero waypoint and index `-1`
when no waypoint was ever closer than `math.MaxFloat64` (in particular when
the list is empty). -/
def TrackMesh.GetClosestWaypoint (m : TrackMesh) (pos : Vec2) : Waypoint × ℤ :=
  let r := closestAux pos m.Waypoints 0 maxFloat64 (-1)
  if r.2 = -1 then (zeroWaypoint, -1)
  else (m.Waypoints.getD r.2.toNat zeroWaypoint, r.2)

/-- The car state (part_005, `physics.Car`), restricted to the fields the
agent reads or writes.  `Checkpoint` is the index of the last passed
waypoint (`-1` = not started). -/
structure Car where
  Position : Vec2
  Velocity : Vec2
  Heading : ℚ
  Speed : ℚ
  Crashed : Bool
  Width : ℚ
  Length : ℚ
  Checkpoint : ℤ
  Laps : ℤ
  CurrentLapTime : ℤ
  LastLapTime : ℤ
deriving DecidableEq, Repr

-- Hyperparameters (internal/agent/qlearning.go, lines 21-27)

/-- Learning rate `Alpha = 0.1`. -/
def Alpha : ℚ := 0.1

/-- Discount factor `Gamma = 0.999987`. -/
def Gamma : ℚ := 0.999987

/-- Exploration floor `MinEpsilon = 0.005`. -/
def MinEpsilon : ℚ := 0.005

/-- Exploration decay rate `Decay = 0.9999875`. -/
def Decay : ℚ := 0.9999875

-- Reward constants (internal/agent/qlearning.go, lines 31-36)

/-- Terminal crash reward `RwCrash = -100.0`. -/
def RwCrash : ℚ := -100.0

/-- Progress multiplier `RwSpeedAlongTrackMultiplier = 1.0`. -/
def RwSpeedAlongTrackMultiplier : ℚ := 1.0

/-- Gravel constant `RwGravel = -5.0`.  Note this NEGATIVE constant is
applied with `reward -= RwGravel` in `CalculateReward`. -/
def RwGravel : ℚ := -5.0

/-- Number of discrete actions (`ActionCount = 5`). -/
abbrev ActionCount : ℕ := 5

/-- The discretized state of the car (internal/agent/qlearning.go). -/
structure State where
  SegmentIdx : ℤ
  LaneIdx : ℤ
  SpeedLevel : ℤ
  HeadingRel : ℤ
deriving DecidableEq, Repr

/-- The Q-table `map[State][ActionCount]float64`: an absent key reads as the
zero value (an all-zero row), which `Option` makes explicit. -/
def QTable := State → Option (Fin ActionCount → ℚ)

/-- The all-zero value row that Go's map read yields for an absent state. -/
def zeroRow : Fin ActionCount → ℚ := fun _ => 0

/-- The inner loop of `Learn`: running maximum over a value row, seeded with
`-math.MaxFloat64` exactly as the Go loop is. -/
def rowMax (row : Fin ActionCount → ℚ) : ℚ :=
  max (max (max (max (max (-maxFloat64) (row 0)) (row 1)) (row 2)) (row 3)) (row 4)

/-- The genuine maximum of a value row (the `max_a' Q(s',a')` of the spec). -/
def bestOf (row : Fin ActionCount → ℚ) : ℚ :=
  max (max (max (max (row 0) (row 1)) (row 2)) (row 3)) (row 4)

/-- `Learn` (internal/agent/qlearning.go, lines 169-192): one-step Bellman
update.  The current row is read with Go's zero-value semantics (absent →
all-zero row); the next state's best value is `0` when `nextState` is
absent, and otherwise the `-MaxFloat64`-seeded running maximum of its row;
the updated row is written back at `state`. -/
def Learn (qt : QTable) (state : State) (action : Fin ActionCount) (reward : ℚ)
    (nextState : State) : QTable :=
  let qValues := (qt state).getD zeroRow
  let currentQ := qValues action
  let maxNextQ : ℚ :=
    match qt nextState with
    | none => 0.0
    | some nextQValues => rowMax nextQValues
  let newQ := currentQ + Alpha * (reward + Gamma * maxNextQ - currentQ)
  fun t => if t = state then some (Function.update qValues action newQ) else qt t

/-- The epsilon update performed first on every `SelectAction` call
(internal/agent/qlearning.go, line 140):
`Epsilon = math.Max(Epsilon*Decay, MinEpsilon)`. -/
def epsilonStep (eps : ℚ) : ℚ := max (eps * Decay) MinEpsilon

/-- The process-wide exploration rate after `n` calls to `SelectAction`,
starting from the initial value `Epsilon = 1.0`. -/
def epsilonAfter : ℕ → ℚ
  | 0 => 1.0
  | n + 1 => epsilonStep (epsilonAfter n)

/-- Lane bucketing of the signed lateral offset `d` inside
`DiscretizeState` (internal/agent/qlearning.go, lines 78-92). -/
def laneOf (d : ℚ) : ℤ :=
  if d < -15 then -2
  else if d < -5 then -1
  else if d < 5 then 0
  else if d < 15 then 1
  else 2

/-- Speed bucketing inside `DiscretizeState` (lines 95-102). -/
def speedLevelOf (speed : ℚ) : ℤ :=
  if speed > 8 then 3
  else if speed > 4 then 2
  else if speed > 0.5 then 1
  else 0

/-- `math.Atan2 y x`, modelled as the argument of the complex number
`x + y·i` (range `(-π, π]`). -/
noncomputable def atan2 (y x : ℝ) : ℝ := Complex.arg ⟨x, y⟩

/-- The two normalization loops of `DiscretizeState`
(`for relHeading > π { relHeading -= 2π }; for relHeading < -π { relHeading += 2π }`)
in closed form: the first loop subtracts `2π` exactly `⌈(θ-π)/(2π)⌉` times,
the second adds it `⌈(-π-θ)/(2π)⌉` times, and at most one of the loops runs. -/
noncomputable def normalizeAngle (θ : ℝ) : ℝ :=
  if θ > Real.pi then θ - 2 * Real.pi * ⌈(θ - Real.pi) / (2 * Real.pi)⌉
  else if θ < -Real.pi then θ + 2 * Real.pi * ⌈(-Real.pi - θ) / (2 * Real.pi)⌉
  else θ

/-- Relative-heading bucketing inside `DiscretizeState` (lines 105-129):
the track tangent is the waypoint normal rotated -90°, the relative heading
is normalized to `[-π, π]`, then bucketed at `±30°`. -/
noncomputable def headingRelOf (heading : ℚ) (normal : Vec2) : ℤ :=
  let tangentX : ℝ := (normal.y : ℝ)
  let tangentY : ℝ := -(normal.x : ℝ)
  let trackHeading := atan2 tangentY tangentX
  let relHeading := normalizeAngle ((heading : ℝ) - trackHeading)
  let deg30 := Real.pi / 6
  if relHeading < -deg30 then -1
  else if relHeading > deg30 then 1
  else 0

/-- `DiscretizeState` (internal/agent/qlearning.go, lines 66-135): converts
continuous car physics to a discrete `State`.  Reads only the car's
`Position`, `Speed` and `Heading`, and the mesh; mutates nothing.
`SegmentIdx` uses Go's truncating integer division `wpIdx / 5`. -/
noncomputable def DiscretizeState (c : Car) (mesh : TrackMesh) : State :=
  let wpr := mesh.GetClosestWaypoint c.Position
  let wp := wpr.1
  let wpIdx := wpr.2
  let dx := c.Position.x - wp.Position.x
  let dy := c.Position.y - wp.Position.y
  let d := dx * wp.Normal.x + dy * wp.Normal.y
  { SegmentIdx := Int.tdiv wpIdx 5
    LaneIdx := laneOf d
    SpeedLevel := speedLevelOf c.Speed
    HeadingRel := headingRelOf c.Heading wp.Normal }

/-- Go's `int(f)` conversion of a `float64`: truncation toward zero. -/
def truncToInt (q : ℚ) : ℤ := if 0 ≤ q then ⌊q⌋ else ⌈q⌉

/-- "Normal" forward progress: the new closest-waypoint index is strictly
ahead of the stored checkpoint by less than the skip bound 10
(`diff > 0 && diff < 10`). -/
def validStep (checkpoint wpIdx : ℤ) : Prop :=
  0 < wpIdx - checkpoint ∧ wpIdx - checkpoint < 10

instance (checkpoint wpIdx : ℤ) : Decidable (validStep checkpoint wpIdx) :=
  inferInstanceAs (Decidable (0 < wpIdx - checkpoint ∧ wpIdx - checkpoint < 10))

/-- Lap wrap-around: the stored checkpoint is within the last 10 indices
(`c.Checkpoint > len(mesh.Waypoints)-10`) and the new index within the
first 10 (`wpIdx < 10`). -/
def lapWrap (checkpoint wpIdx meshLen : ℤ) : Prop :=
  meshLen - 10 < checkpoint ∧ wpIdx < 10

instance (checkpoint wpIdx meshLen : ℤ) : Decidable (lapWrap checkpoint wpIdx meshLen) :=
  inferInstanceAs (Decidable (meshLen - 10 < checkpoint ∧ wpIdx < 10))

/-- The observable outcome of `CalculateReward`: the returned reward and the
car's `Checkpoint` and `Laps` fields afterwards (which the Go function
mutates through the `*physics.Car` pointer). -/
structure RewardResult where
  reward : ℚ
  checkpoint : ℤ
  laps : ℤ
deriving DecidableEq, Repr

/-- `CalculateReward` (internal/agent/qlearning.go, lines 199-303).
Crashed cars get the fixed terminal reward immediately.  Otherwise the
reward sums: the speed-along-track progress term, an edge-proximity
penalty, the gravel branch (`reward -= RwGravel`, transcribed exactly as in
the source), a per-tick existence penalty, a stationary penalty, a
wrong-way penalty, and the checkpoint / lap-wrap logic, which is the only
part that mutates the car (`Checkpoint`, `Laps`). -/
def CalculateReward (c : Car) (grid : Grid) (mesh : TrackMesh) (bestLapTime : ℤ) :
    RewardResult :=
  if c.Crashed then
    { reward := RwCrash, checkpoint := c.Checkpoint, laps := c.Laps }
  else
    let wpr := mesh.GetClosestWaypoint c.Position
    let wp := wpr.1
    let wpIdx := wpr.2
    let tangentX := wp.Normal.y
    let tangentY := -wp.Normal.x
    let speedAlongTrack := c.Velocity.x * tangentX + c.Velocity.y * tangentY
    let reward := speedAlongTrack * RwSpeedAlongTrackMultiplier
    let dx := c.Position.x - wp.Position.x
    let dy := c.Position.y - wp.Position.y
    let d := dx * wp.Normal.x + dy * wp.Normal.y
    let reward := if |d| > 20 then reward - 2.0 else reward
    let cellX := truncToInt c.Position.x
    let cellY := truncToInt c.Position.y
    let cell := grid.Get cellX cellY
    let reward := if cell.type = CellType.gravel then reward - RwGravel else reward
    let reward := reward - 1.0
    let reward := if c.Speed < 0.1 then reward - 10.0 else reward
    let reward := if speedAlongTrack < -0.1 then reward - 20.0 else reward
    let meshLen : ℤ := mesh.Waypoints.length
    let vStep := validStep c.Checkpoint wpIdx
    let wrap := lapWrap c.Checkpoint wpIdx meshLen
    let laps := if wrap then c.Laps + 1 else c.Laps
    let reward := if wrap then reward + 1000.0 else reward
    let reward :=
      if wrap ∧ bestLapTime > 0 ∧ c.CurrentLapTime < bestLapTime then
        reward + ((bestLapTime - c.CurrentLapTime : ℤ) : ℚ) * 5.0 + 500.0
      else reward
    let validProgress := vStep ∨ wrap
    let checkpoint := if validProgress ∨ c.Checkpoint = -1 then wpIdx else c.Checkpoint
    let reward := if validProgress ∨ c.Checkpoint = -1 then reward + 10.0 else reward
    { reward := reward, checkpoint := checkpoint, laps := laps }

/-- The signed lateral offset `d` computed inside `DiscretizeState` (and
`CalculateReward` / `WorldToFrenet`): the car-to-closest-waypoint vector
projected onto the waypoint's unit normal. -/
def lateralOffset (c : Car) (mesh : TrackMesh) : ℚ :=
  let wp := (mesh.GetClosestWaypoint c.Position).1
  (c.Position.x - wp.Position.x) * wp.Normal.x + (c.Position.y - wp.Position.y) * wp.Normal.y

-- Concrete fixtures used by counterexample and witness theorems.

/-- A one-waypoint mesh: waypoint at the origin with normal `(0, 1)`. -/
def mesh1 : TrackMesh := ⟨[⟨0, ⟨0, 0⟩, ⟨0, 1⟩, 50, 0⟩], 0⟩

/-- A 20-waypoint straight mesh: waypoint `k` at `(k, 0)`, normal `(0, 1)`. -/
def mesh20 : TrackMesh :=
  ⟨(List.range 20).map (fun k => ⟨(k : ℤ), ⟨(k : ℚ), 0⟩, ⟨0, 1⟩, 50, (k : ℚ)⟩), 20⟩

/-- The empty mesh. -/
def meshEmpty : TrackMesh := ⟨[], 0⟩

/-- A 1×1 grid whose only cell is Gravel. -/
def gridGravel : Grid := ⟨1, 1, [[⟨CellType.gravel, 0.5⟩]], 1⟩

/-- A 1×1 grid whose only cell is Tarmac. -/
def gridTarmac : Grid := ⟨1, 1, [[⟨CellType.tarmac, 1⟩]], 1⟩

/-- A 2×3 well-formed grid with pairwise distinct frictions. -/
def grid23 : Grid :=
  ⟨2, 3, [[⟨CellType.tarmac, 1⟩, ⟨CellType.gravel, 0.5⟩, ⟨CellType.wall, 0⟩],
          [⟨CellType.start, 1⟩, ⟨CellType.tarmac, 0.9⟩, ⟨CellType.gravel, 0.4⟩]], 1⟩

/-- A non-crashed car at the origin moving along the track
(`Velocity = (1,0)`, `Speed = 1`), with stored checkpoint `-20` so that
neither the forward-step nor the lap-wrap branch fires on `mesh1`. -/
def car0 : Car :=
  ⟨⟨0, 0⟩, ⟨1, 0⟩, 0, 1, false, 10, 22.5, -20, 0, 0, 0⟩

/-- A crashed car. -/
def carCrashed : Car :=
  ⟨⟨3, 4⟩, ⟨1, 0⟩, 0, 1, true, 10, 22.5, 7, 2, 55, 40⟩

/-- A non-crashed car at `(15, 0)` with stored checkpoint `0`: on `mesh20`
its closest waypoint has index 15, a forward jump past the skip bound. -/
def car15 : Car :=
  ⟨⟨15, 0⟩, ⟨1, 0⟩, 0, 1, false, 10, 22.5, 0, 0, 0, 0⟩

/-- A car with the same `Position`, `Speed` and `Heading` as `car0` but
different values in every field `DiscretizeState` does not read. -/
def carTwin : Car :=
  ⟨⟨0, 0⟩, ⟨-3, 7⟩, 0, 1, true, 11, 20, 4, 9, 123, 456⟩

/-- A discrete state used as the updated key in the `Learn` witness. -/
def stateA : State := ⟨3, 1, 2, 0⟩

/-- A discrete state used as the next-state key in the `Learn` witness. -/
def stateB : State := ⟨4, -1, 3, 1⟩

/-- A concrete value row. -/
def rowB : Fin ActionCount → ℚ := fun i => (i : ℚ) - 2

/-- A concrete Q-table holding only `stateB`. -/
def qtB : QTable := fun t => if t = stateB then some rowB else none

/-- C7: the lane component of `DiscretizeState` is exactly `laneOf` applied
to the signed lateral offset `d`; `laneOf` stays within the five ordered
values `-2..2`, is monotone non-decreasing in `d`, attains all five values,
and the strict `<` convention sends an offset equal to a boundary to the
bucket on the greater side (`d = -15 ↦ -1`, `d = -5 ↦ 0`, `d = 5 ↦ 1`,
`d = 15 ↦ 2`). -/
theorem laneOf_bucketing :
    (∀ (c : Car) (mesh : TrackMesh),
        (DiscretizeState c mesh).LaneIdx = laneOf (lateralOffset c mesh)) ∧
    (∀ d : ℚ, -2 ≤ laneOf d ∧ laneOf d ≤ 2) ∧
    (∀ d d' : ℚ, d ≤ d' → laneOf d ≤ laneOf d') ∧
    (laneOf (-16) = -2 ∧ laneOf (-15) = -1 ∧ laneOf (-5) = 0 ∧
      laneOf 5 = 1 ∧ laneOf 15 = 2) := by
  refine ⟨fun c mesh => rfl, fun d => ?_, fun d d' h => ?_, by decide⟩
  · unfold laneOf; split_ifs <;> norm_num
  · unfold laneOf; split_ifs <;> first | decide | (exfalso; linarith)

/-- Witness for C7: the monotonicity part of `laneOf_bucketing` at the
concrete offsets `0 ≤ 7`. -/
theorem laneOf_bucketing_witness : laneOf 0 ≤ laneOf 7 :=
  laneOf_bucketing.2.2.1 0 7 (by norm_num)

/-- C8: the epsilon update of `SelectAction` is
`ε ← max (ε·Decay) MinEpsilon`; consequently, starting from the initial
value `1.0`, the exploration rate never falls below `MinEpsilon` and is
non-increasing across calls. -/
theorem epsilon_decay_invariant :
    (∀ e : ℚ, epsilonStep e = max (e * Decay) MinEpsilon) ∧
    (∀ n : ℕ, MinEpsilon ≤ epsilonAfter n) ∧
    (∀ n : ℕ, epsilonAfter (n + 1) ≤ epsilonAfter n) := by
  have floor : ∀ n : ℕ, MinEpsilon ≤ epsilonAfter n := by
    intro n
    cases n with
    | zero => norm_num [epsilonAfter, MinEpsilon]
    | succ m => exact le_max_right _ _
  refine ⟨fun e => rfl, floor, fun n => ?_⟩
  have h0 : (0 : ℚ) ≤ epsilonAfter n := by
    have := floor n; norm_num [MinEpsilon] at this ⊢; linarith
  have hdecay : epsilonAfter n * Decay ≤ epsilonAfter n := by
    have h1 : epsilonAfter n * Decay ≤ epsilonAfter n * 1 :=
      mul_le_mul_of_nonneg_left (by norm_num [Decay]) h0
    simpa using h1
  exact max_le hdecay (floor n)

/-- C6: `Grid.Get` returns the synthetic Wall cell (friction 0) for every
out-of-range coordinate, and on a well-formed grid an in-range lookup stays
inside the cell array and returns the stored cell. -/
theorem Grid_Get_bounds_safe (g : Grid) (x y : ℤ) :
    ((x < 0 ∨ x ≥ g.width ∨ y < 0 ∨ y ≥ g.height) → g.Get x y = wallCell) ∧
    (g.WellFormed → 0 ≤ x → x < g.width → 0 ≤ y → y < g.height →
      x.toNat < g.cells.length ∧
      y.toNat < (g.cells.getD x.toNat []).length ∧
      g.Get x y = (g.cells.getD x.toNat []).getD y.toNat wallCell) := by
  constructor
  · intro h
    simp only [Grid.Get, if_pos h]
    norm_num [wallCell]
  · intro hwf hx0 hxw hy0 hyh
    have hc : ¬(x < 0 ∨ x ≥ g.width ∨ y < 0 ∨ y ≥ g.height) := by omega
    have hxlen : x.toNat < g.cells.length := by rw [hwf.1]; omega
    have hmem : g.cells.getD x.toNat [] ∈ g.cells := by
      rw [List.getD_eq_getElem _ _ hxlen]
      exact List.getElem_mem hxlen
    have hylen : y.toNat < (g.cells.getD x.toNat []).length := by
      rw [hwf.2 _ hmem]; omega
    exact ⟨hxlen, hylen, by simp only [Grid.Get, if_neg hc]⟩

/-- Witness for C6: on the well-formed 2×3 grid `grid23`, the out-of-range
lookup `(-1, 0)` yields the Wall cell and the in-range lookup `(1, 2)`
yields the stored cell. -/
theorem Grid_Get_bounds_safe_witness :
    grid23.Get (-1) 0 = wallCell ∧
    grid23.Get 1 2 = (grid23.cells.getD 1 []).getD 2 wallCell :=
  ⟨(Grid_Get_bounds_safe grid23 (-1) 0).1 (by norm_num [grid23]),
    ((Grid_Get_bounds_safe grid23 1 2).2 ⟨rfl, fun col h => by fin_cases h <;> rfl⟩
      (by norm_num) (by norm_num [grid23])
      (by norm_num) (by norm_num [grid23])).2.2⟩

/-- C2: for a crashed car, `CalculateReward` returns exactly the fixed
terminal reward `-100` and leaves the car's stored checkpoint index and lap
counter unchanged; no other reward or penalty term is applied. -/
theorem CalculateReward_crashed (c : Car) (grid : Grid) (mesh : TrackMesh)
    (bestLapTime : ℤ) (h : c.Crashed = true) :
    CalculateReward c grid mesh bestLapTime =
      { reward := -100, checkpoint := c.Checkpoint, laps := c.Laps } := by
  simp only [CalculateReward, h, if_true]
  norm_num [RwCrash]

/-- Witness for C2: `CalculateReward_crashed` applied to the concrete
crashed car `carCrashed`. -/
theorem CalculateReward_crashed_witness :
    CalculateReward carCrashed gridTarmac mesh1 0 =
      { reward := -100, checkpoint := carCrashed.Checkpoint, laps := carCrashed.Laps } :=
  CalculateReward_crashed carCrashed gridTarmac mesh1 0 rfl

/-- C1 (code bug evidence): with every other input identical, the car on
the Gravel cell receives a reward exactly `5` HIGHER than the car on
Tarmac — the source's `reward -= RwGravel` with `RwGravel = -5.0` adds the
"penalty" instead of subtracting it, contradicting the claimed strict
decrease. -/
theorem CalculateReward_gravel_adds_bonus :
    (CalculateReward car0 gridGravel mesh1 0).reward
      = (CalculateReward car0 gridTarmac mesh1 0).reward + 5 ∧
    (CalculateReward car0 gridTarmac mesh1 0).reward
      < (CalculateReward car0 gridGravel mesh1 0).reward := by
  with_unfolding_all decide

/-- C10: on a mesh with an empty waypoint list, `GetClosestWaypoint` does
not fail: it returns the zero-value waypoint and the sentinel index `-1`. -/
theorem GetClosestWaypoint_empty (m : TrackMesh) (pos : Vec2)
    (h : m.Waypoints = []) :
    m.GetClosestWaypoint pos = (zeroWaypoint, -1) := by
  simp [TrackMesh.GetClosestWaypoint, h, closestAux]

/-- Witness for C10: `GetClosestWaypoint_empty` on the concrete empty mesh. -/
theorem GetClosestWaypoint_empty_witness :
    meshEmpty.GetClosestWaypoint ⟨3, 4⟩ = (zeroWaypoint, -1) :=
  GetClosestWaypoint_empty meshEmpty ⟨3, 4⟩ rfl

/-- C9: `DiscretizeState` is a pure function of the car's pose
(`Position`, `Speed`, `Heading`) and the mesh: two cars agreeing on those
fields discretize to the identical `State` 4-tuple, whatever their other
fields; in particular repeated calls on the same inputs return the same
result, and neither the car nor the mesh is mutated (the embedding takes
both by value and returns only the `State`). -/
theorem DiscretizeState_deterministic (c₁ c₂ : Car) (mesh : TrackMesh)
    (hpos : c₁.Position = c₂.Position) (hspeed : c₁.Speed = c₂.Speed)
    (hheading : c₁.Heading = c₂.Heading) :
    DiscretizeState c₁ mesh = DiscretizeState c₂ mesh := by
  simp only [DiscretizeState, hpos, hspeed, hheading]

/-- Witness for C9: `car0` and `carTwin` share a pose and discretize
identically on `mesh1`. -/
theorem DiscretizeState_deterministic_witness :
    DiscretizeState car0 mesh1 = DiscretizeState carTwin mesh1 :=
  DiscretizeState_deterministic car0 carTwin mesh1 rfl rfl rfl

/-- C4: `Learn` rewrites the table entry at `(s, a)` to
`Q(s,a) + Alpha·(r + Gamma·max_a' Q(s',a') − Q(s,a))`, where an absent
state `s` reads as the all-zero row and an absent next state `s'`
contributes the best value `0` directly; the hypothesis that the stored
row is bounded below by `-MaxFloat64` (true of every `float64` row) lets
the code's `-MaxFloat64`-seeded running maximum coincide with the genuine
maximum. -/
theorem Learn_bellman_update (qt : QTable) (s : State) (a : Fin ActionCount)
    (r : ℚ) (s' : State)
    (hb : ∀ row, qt s' = some row → ∀ i, -maxFloat64 ≤ row i) :
    Learn qt s a r s' s =
      some (Function.update ((qt s).getD zeroRow) a
        (((qt s).getD zeroRow) a +
          Alpha * (r + Gamma *
            (match qt s' with
              | none => 0
              | some row => bestOf row) - ((qt s).getD zeroRow) a))) := by
  cases h : qt s' with
  | none =>
    simp [Learn, h]
    norm_num
  | some row =>
    have hmax : rowMax row = bestOf row := by
      unfold rowMax bestOf
      rw [max_eq_right (hb row h 0)]
    simp [Learn, h, hmax]

/-- Witness for C4: `Learn_bellman_update` on the concrete one-row table
`qtB`, updating action `0` of `stateA` with reward `2` and next state
`stateB`. -/
theorem Learn_bellman_update_witness :
    Learn qtB stateA 0 2 stateB stateA =
      some (Function.update ((qtB stateA).getD zeroRow) 0
        (((qtB stateA).getD zeroRow) 0 +
          Alpha * (2 + Gamma *
            (match qtB stateB with
              | none => 0
              | some row => bestOf row) - ((qtB stateA).getD zeroRow) 0))) :=
  Learn_bellman_update qtB stateA 0 2 stateB (by
    intro row h
    simp only [qtB, if_pos rfl] at h
    injection h with h'
    subst h'
    with_unfolding_all decide)

/-- C3: for a non-crashed car with a stored checkpoint `≥ 0`, a
closest-waypoint index at least the skip bound (10) ahead of it, and the
lap-wrap condition false, the transition is not valid progress and
`CalculateReward` leaves the stored checkpoint unchanged. -/
theorem CalculateReward_skip_not_progress (c : Car) (grid : Grid)
    (mesh : TrackMesh) (bestLapTime : ℤ)
    (hcrash : c.Crashed = false) (hcp : 0 ≤ c.Checkpoint)
    (hskip : 10 ≤ (mesh.GetClosestWaypoint c.Position).2 - c.Checkpoint)
    (hwrap : ¬ lapWrap c.Checkpoint (mesh.GetClosestWaypoint c.Position).2
        (mesh.Waypoints.length : ℤ)) :
    ¬ validStep c.Checkpoint (mesh.GetClosestWaypoint c.Position).2 ∧
    (CalculateReward c grid mesh bestLapTime).checkpoint = c.Checkpoint := by
  have hv : ¬ validStep c.Checkpoint (mesh.GetClosestWaypoint c.Position).2 := by
    unfold validStep; omega
  have hne : ¬ c.Checkpoint = -1 := by omega
  exact ⟨hv, by simp [CalculateReward, hcrash, hv, hwrap, hne]⟩

/-- Witness for C3: `car15` sits at waypoint index 15 of `mesh20` with
stored checkpoint 0 — a 15-index jump, not a lap wrap — and its stored
checkpoint is left unchanged. -/
theorem CalculateReward_skip_not_progress_witness :
    (CalculateReward car15 gridTarmac mesh20 0).checkpoint = car15.Checkpoint :=
  (CalculateReward_skip_not_progress car15 gridTarmac mesh20 0 rfl (by decide)
    (by with_unfolding_all decide) (by with_unfolding_all decide)).2

/-- Invariant of the linear scan `closestAux`: the resulting best squared
distance never exceeds the seed nor the squared distance to any scanned
waypoint, and either no waypoint beat the seed (the accumulator is
returned unchanged) or the resulting index points at the first waypoint
attaining the resulting minimum. -/
theorem closestAux_spec (pos : Vec2) (l : List Waypoint) (i : ℕ) (minD : ℚ) (idx : ℤ) :
    (closestAux pos l i minD idx).1 ≤ minD ∧
    (∀ j < l.length,
      (closestAux pos l i minD idx).1 ≤ distSq pos ((l.getD j zeroWaypoint).Position)) ∧
    (closestAux pos l i minD idx = (minD, idx) ∨
      ∃ j < l.length,
        (closestAux pos l i minD idx).2 = ((i + j : ℕ) : ℤ) ∧
        (closestAux pos l i minD idx).1 = distSq pos ((l.getD j zeroWaypoint).Position) ∧
        (closestAux pos l i minD idx).1 < minD ∧
        ∀ k < j, (closestAux pos l i minD idx).1
          < distSq pos ((l.getD k zeroWaypoint).Position)) := by
  induction l generalizing i minD idx with
  | nil => simp [closestAux]
  | cons wp rest ih =>
    by_cases hlt : distSq pos wp.Position < minD
    · have hrw : closestAux pos (wp :: rest) i minD idx
          = closestAux pos rest (i + 1) (distSq pos wp.Position) (i : ℤ) := by
        simp [closestAux, hlt]
      obtain ⟨ihA, ihB, ihC⟩ := ih (i + 1) (distSq pos wp.Position) (i : ℤ)
      rw [hrw]
      refine ⟨ihA.trans hlt.le, ?_, ?_⟩
      · intro j hj
        cases j with
        | zero => simpa using ihA
        | succ j' =>
          simp only [List.getD_cons_succ]
          exact ihB j' (by simp only [List.length_cons] at hj; omega)
      · rcases ihC with heq | ⟨j', hj', h2, h3, h4, h5⟩
        · right
          refine ⟨0, by simp, ?_, ?_, ?_, ?_⟩
          · rw [heq]; norm_num
          · rw [heq]; simp
          · rw [heq]; exact hlt
          · intro k hk; exact absurd hk (Nat.not_lt_zero k)
        · right
          refine ⟨j' + 1, by simp only [List.length_cons]; omega, ?_, ?_, ?_, ?_⟩
          · rw [h2]; congr 1; omega
          · rw [h3]; simp
          · exact h4.trans hlt
          · intro k hk
            cases k with
            | zero => simpa using h4
            | succ k' =>
              simp only [List.getD_cons_succ]
              exact h5 k' (by omega)
    · have hrw : closestAux pos (wp :: rest) i minD idx
          = closestAux pos rest (i + 1) minD idx := by
        simp [closestAux, hlt]
      obtain ⟨ihA, ihB, ihC⟩ := ih (i + 1) minD idx
      rw [hrw]
      push_neg at hlt
      refine ⟨ihA, ?_, ?_⟩
      · intro j hj
        cases j with
        | zero => simpa using ihA.trans hlt
        | succ j' =>
          simp only [List.getD_cons_succ]
          exact ihB j' (by simp only [List.length_cons] at hj; omega)
      · rcases ihC with heq | ⟨j', hj', h2, h3, h4, h5⟩
        · exact Or.inl heq
        · right
          refine ⟨j' + 1, by simp only [List.length_cons]; omega, ?_, ?_, ?_, ?_⟩
          · rw [h2]; congr 1; omega
          · rw [h3]; simp
          · exact h4
          · intro k hk
            cases k with
            | zero => simpa using h4.trans_le hlt
            | succ k' =>
              simp only [List.getD_cons_succ]
              exact h5 k' (by omega)

/-- C5: on a mesh with a non-empty waypoint list (whose squared distances
to the query point are representable, i.e. below `math.MaxFloat64`, as
every `float64` is), `GetClosestWaypoint` returns a valid index and the
waypoint stored there, whose (squared and hence Euclidean) distance to the
query point is ≤ that of every other waypoint, and every earlier index is
strictly farther — i.e. ties are broken by first occurrence in iteration
order. -/
theorem GetClosestWaypoint_is_closest (m : TrackMesh) (pos : Vec2)
    (hne : m.Waypoints ≠ [])
    (hfin : ∀ wp ∈ m.Waypoints, distSq pos wp.Position < maxFloat64) :
    0 ≤ (m.GetClosestWaypoint pos).2 ∧
    (m.GetClosestWaypoint pos).2.toNat < m.Waypoints.length ∧
    (m.GetClosestWaypoint pos).1 =
      m.Waypoints.getD (m.GetClosestWaypoint pos).2.toNat zeroWaypoint ∧
    (∀ j < m.Waypoints.length,
      distSq pos (m.GetClosestWaypoint pos).1.Position ≤
        distSq pos ((m.Waypoints.getD j zeroWaypoint).Position)) ∧
    (∀ j < m.Waypoints.length,
      Real.sqrt ((distSq pos (m.GetClosestWaypoint pos).1.Position : ℝ)) ≤
        Real.sqrt ((distSq pos ((m.Waypoints.getD j zeroWaypoint).Position) : ℝ))) ∧
    (∀ j < (m.GetClosestWaypoint pos).2.toNat,
      distSq pos (m.GetClosestWaypoint pos).1.Position <
        distSq pos ((m.Waypoints.getD j zeroWaypoint).Position)) := by
  obtain ⟨hA, hB, hC⟩ := closestAux_spec pos m.Waypoints 0 maxFloat64 (-1)
  rcases hC with heq | ⟨j, hj, h2, h3, h4, h5⟩
  · exfalso
    have h0 : 0 < m.Waypoints.length := List.length_pos.mpr hne
    have hle := hB 0 h0
    have hmem : m.Waypoints.getD 0 zeroWaypoint ∈ m.Waypoints := by
      rw [List.getD_eq_getElem _ _ h0]
      exact List.getElem_mem h0
    have hlt := hfin _ hmem
    rw [heq] at hle
    simp only at hle
    linarith
  · have hj2 : (closestAux pos m.Waypoints 0 maxFloat64 (-1)).2 = (j : ℤ) := by
      rw [h2]; norm_num
    have hne2 : ¬ ((closestAux pos m.Waypoints 0 maxFloat64 (-1)).2 = -1) := by
      rw [hj2]; omega
    have hres : m.GetClosestWaypoint pos
        = (m.Waypoints.getD j zeroWaypoint, (j : ℤ)) := by
      simp only [TrackMesh.GetClosestWaypoint]
      rw [if_neg hne2, hj2]
      simp
    refine ⟨?_, ?_, ?_, ?_, ?_, ?_⟩
    · rw [hres]; exact Int.natCast_nonneg j
    · rw [hres]; simpa using hj
    · rw [hres]; simp
    · intro j' hj'
      rw [hres]
      simp only
      rw [← h3]
      exact hB j' hj'
    · intro j' hj'
      rw [hres]
      simp only
      apply Real.sqrt_le_sqrt
      have h := hB j' hj'
      rw [h3] at h
      exact_mod_cast h
    · intro k hk
      rw [hres] at hk ⊢
      simp only at hk ⊢
      rw [← h3]
      exact h5 k (by simpa using hk)

/-- Witness for C5: on the 20-waypoint straight mesh and query point
`(15, 0)`, the returned index is in range. -/
theorem GetClosestWaypoint_is_closest_witness :
    (mesh20.GetClosestWaypoint ⟨15, 0⟩).2.toNat < mesh20.Waypoints.length :=
  (GetClosestWaypoint_is_closest mesh20 ⟨15, 0⟩ (by with_unfolding_all decide)
    (by with_unfolding_all decide)).2.1
